import Mathlib

/-!
Verification of the state-reconciliation and combat layer of a browser
multiplayer shooter.  The definitions below are shallow embeddings of the
TypeScript source: `src/game/engine.ts` (combat, debouncing, throttling,
projectile lifecycle), `src/components/game/GameContainer.tsx` (incoming
update significance classifier) and `src/lib/supabase/client.ts`
(player deletion fallback).  JavaScript numbers are modelled by `ℚ`
(positions, health) or `ℤ`/`ℕ` (timestamps in milliseconds); `Math.floor`
and `Math.ceil` become `Int.floor`/`Int.ceil`.
-/

namespace Shooter

/-- `DEFAULT_GAME_SETTINGS.maxHealth` (engine.ts line 242). -/
def maxHealth : ℚ := 100

/-- `DEFAULT_GAME_SETTINGS.shootsToKill` (engine.ts line 243). -/
def shootsToKill : ℚ := 3

/-- `DEFAULT_GAME_SETTINGS.respawnTime` in ms (engine.ts line 244). -/
def respawnTime : ℕ := 3000

/-- `Math.ceil(this.settings.maxHealth / this.settings.shootsToKill)`,
the per-hit damage computed inside `damagePlayer` (engine.ts lines 1013-1016)
and inside `createRemoteProjectile` (lines 2503-2505). -/
def exactDamage : ℤ := ⌈maxHealth / shootsToKill⌉

/-- A rational is an integer (denominator 1); used to state the
"health is always an integer" part of the data-model invariant. -/
def IsInt (q : ℚ) : Prop := q.den = 1

instance (q : ℚ) : Decidable (IsInt q) :=
  inferInstanceAs (Decidable (q.den = 1))

/-- The health update performed by one `damagePlayer` call
(engine.ts lines 1018-1030):
`currentHealth = Math.floor(playerToUpdate.metadata.health || maxHealth)`
(JavaScript `||` replaces a falsy stored health, in particular `0`, by
`maxHealth`), then `newHealth = Math.max(0, currentHealth - exactDamage)`. -/
def damagePlayerNewHealth (h : ℚ) : ℚ :=
  ((max 0 ((⌊if h = 0 then maxHealth else h⌋ : ℤ) - exactDamage) : ℤ) : ℚ)

/-- One `damagePlayer(playerId, damage)` call as it affects the target's
stored health.  The `damage` argument is accepted but unused: the source
recomputes `exactDamage` from the settings (engine.ts lines 1013-1016) and
never reads its `damage` parameter. -/
def damagePlayerStep (damage : ℚ) (h : ℚ) : ℚ :=
  damagePlayerNewHealth h

/-- Health after a sequence of `damagePlayer` calls with the given
damage arguments. -/
def applyDamages (ds : List ℚ) (h0 : ℚ) : ℚ :=
  ds.foldl (fun h d => damagePlayerStep d h) h0

/-- The successive health values observed after each application. -/
def healthTrace : List ℚ → ℚ → List ℚ
  | [], _ => []
  | d :: ds, h =>
      let h1 := damagePlayerStep d h
      h1 :: healthTrace ds h1

/-- `n` successive hits starting from full health. -/
def healthAfterHits : ℕ → ℚ
  | 0 => maxHealth
  | n + 1 => damagePlayerNewHealth (healthAfterHits n)

theorem exactDamage_eq : exactDamage = 34 := by
  rw [exactDamage, maxHealth, shootsToKill, Int.ceil_eq_iff] <;> norm_num

theorem damage_from_100 : damagePlayerNewHealth 100 = 66 := by
  rw [damagePlayerNewHealth, exactDamage_eq, maxHealth]; norm_num

theorem damage_from_66 : damagePlayerNewHealth 66 = 32 := by
  rw [damagePlayerNewHealth, exactDamage_eq, maxHealth]; norm_num

theorem damage_from_32 : damagePlayerNewHealth 32 = 0 := by
  rw [damagePlayerNewHealth, exactDamage_eq, maxHealth]; norm_num

theorem damage_from_0 : damagePlayerNewHealth 0 = 66 := by
  rw [damagePlayerNewHealth, exactDamage_eq, maxHealth]; norm_num

theorem damageStep_bounds (d h : ℚ) (hub : h ≤ maxHealth) :
    IsInt (damagePlayerStep d h) ∧ 0 ≤ damagePlayerStep d h ∧
      damagePlayerStep d h ≤ maxHealth := by
  rw [damagePlayerStep, damagePlayerNewHealth, exactDamage_eq]
  have hx : (if h = 0 then maxHealth else h) ≤ (100 : ℚ) := by
    split
    · rw [maxHealth]
    · rw [maxHealth] at hub; exact hub
  have hfloor : ⌊if h = 0 then maxHealth else h⌋ ≤ (100 : ℤ) := by
    have := Int.floor_le_floor hx
    simpa using this
  refine ⟨?_, ?_, ?_⟩
  · exact Rat.den_intCast _
  · exact_mod_cast le_max_left 0 _
  · rw [maxHealth]
    have : max 0 (⌊if h = 0 then maxHealth else h⌋ - 34) ≤ (100 : ℤ) :=
      max_le (by norm_num) (by omega)
    exact_mod_cast this

theorem damageStep_pos_formula (d h : ℚ) (hi : IsInt h) (hp : 0 < h) :
    damagePlayerStep d h = max 0 (h - 34) := by
  have hnum : ((h.num : ℤ) : ℚ) = h := (Rat.den_eq_one_iff h).mp hi
  rw [damagePlayerStep, damagePlayerNewHealth, exactDamage_eq,
    if_neg (ne_of_gt hp), ← hnum, Int.floor_intCast]
  push_cast [Int.cast_max]
  norm_num

theorem healthTrace_bounds (ds : List ℚ) (h0 : ℚ) (hub : h0 ≤ maxHealth) :
    ∀ h ∈ healthTrace ds h0, IsInt h ∧ 0 ≤ h ∧ h ≤ maxHealth := by
  induction ds generalizing h0 with
  | nil => intro h hmem; simp [healthTrace] at hmem
  | cons d ds ih =>
      intro h hmem
      rw [healthTrace] at hmem
      rcases List.mem_cons.mp hmem with rfl | hmem
      · exact damageStep_bounds d h0 hub
      · exact ih (damagePlayerStep d h0) (damageStep_bounds d h0 hub).2.2 h hmem

/-- C1: with `maxHealth = 100` and `shootsToKill = 3`, the per-hit damage is
`ceil(100/3) = 34`; starting from full health, three successive `damagePlayer`
applications follow 100 → 66 → 32 → 0, reaching the clamped value 0 exactly on
the third hit, while fewer than three hits leave health strictly positive. -/
theorem three_hits_deplete_full_health :
    exactDamage = 34 ∧
    healthAfterHits 0 = 100 ∧ healthAfterHits 1 = 66 ∧
    healthAfterHits 2 = 32 ∧ healthAfterHits 3 = 0 ∧
    0 < healthAfterHits 0 ∧ 0 < healthAfterHits 1 ∧ 0 < healthAfterHits 2 := by
  have h0 : healthAfterHits 0 = 100 := by rw [healthAfterHits, maxHealth]
  have h1 : healthAfterHits 1 = 66 := by
    rw [healthAfterHits, h0, damage_from_100]
  have h2 : healthAfterHits 2 = 32 := by
    rw [healthAfterHits, h1, damage_from_66]
  have h3 : healthAfterHits 3 = 0 := by
    rw [healthAfterHits, h2, damage_from_32]
  refine ⟨exactDamage_eq, h0, h1, h2, h3, ?_, ?_, ?_⟩ <;> simp [h0, h1, h2]

/-- C2 counterexample: four `damagePlayer` applications (damage arguments
34 each, summing to 136 ≥ maxHealth) leave the target at health 66, not 0:
the source re-reads a stored health of 0 as `maxHealth` through the
JavaScript expression `metadata.health || maxHealth`, so health does not
stay clamped at 0 once depleted. -/
theorem depleted_health_not_clamped_cex :
    maxHealth ≤ (34 : ℚ) + 34 + 34 + 34 ∧
    applyDamages [34, 34, 34] maxHealth = 0 ∧
    applyDamages [34, 34, 34, 34] maxHealth = 66 ∧ (66 : ℚ) ≠ 0 := by
  have e3 : applyDamages [34, 34, 34] maxHealth = 0 := by
    show damagePlayerStep 34 (damagePlayerStep 34 (damagePlayerStep 34 maxHealth)) = 0
    rw [maxHealth]
    simp only [damagePlayerStep, damage_from_100, damage_from_66, damage_from_32]
  have e4 : applyDamages [34, 34, 34, 34] maxHealth = 66 := by
    show damagePlayerStep 34 (applyDamages [34, 34, 34] maxHealth) = 66
    rw [e3]
    simp only [damagePlayerStep, damage_from_0]
  exact ⟨by rw [maxHealth]; norm_num, e3, e4, by norm_num⟩

/-- C2 (amended): along any sequence of `damagePlayer` applications the
target's health is always an integer in `[0, maxHealth]` and never negative;
an application to a target with positive health yields `max 0 (health - 34)`
(so the depleting hit lands exactly on 0), but an application to a target
whose health is already 0 re-reads that health as `maxHealth` (the
`metadata.health || maxHealth` fallback) and yields 66, so health does not
remain clamped at 0 under further applications. -/
theorem health_interval_invariant_amended :
    ∀ (ds : List ℚ) (h0 : ℚ), IsInt h0 → 0 ≤ h0 → h0 ≤ maxHealth →
      (∀ h ∈ healthTrace ds h0, IsInt h ∧ 0 ≤ h ∧ h ≤ maxHealth) ∧
      (∀ d h, IsInt h → 0 < h → damagePlayerStep d h = max 0 (h - 34)) ∧
      (∀ d : ℚ, damagePlayerStep d 0 = 66) := by
  intro ds h0 _ _ hub
  exact ⟨healthTrace_bounds ds h0 hub,
    fun d h hi hp => damageStep_pos_formula d h hi hp,
    fun d => damage_from_0⟩

/-- Witness for C2 (amended) at the concrete run 100 → 66 → 32 → 0 → 66. -/
theorem health_interval_invariant_amended_witness :
    IsInt (100 : ℚ) ∧ (0 : ℚ) ≤ 100 ∧ (100 : ℚ) ≤ maxHealth ∧
    (IsInt (66 : ℚ) ∧ (0 : ℚ) ≤ 66 ∧ (66 : ℚ) ≤ maxHealth) := by
  have hint : IsInt (100 : ℚ) := by rw [IsInt]; norm_num
  have h1 : (0 : ℚ) ≤ 100 := by norm_num
  have h2 : (100 : ℚ) ≤ maxHealth := by rw [maxHealth]
  have hmem : (66 : ℚ) ∈ healthTrace [34, 34, 34, 34] 100 := by
    simp only [healthTrace, damagePlayerStep, damage_from_100, damage_from_66,
      damage_from_32, damage_from_0]
    simp
  exact ⟨hint, h1, h2,
    (health_interval_invariant_amended [34, 34, 34, 34] 100 hint h1 h2).1 66 hmem⟩

/-! ## `damagePlayer` guard clauses (engine.ts lines 999-1096)

State visible to `damagePlayer`: the local player's id and kill counter,
the `players` map (mesh metadata holds the stored health; `Option Meta`
models a mesh without metadata), and the set of scheduled respawn timers. -/

/-- A player mesh's `metadata` (only the health field matters here). -/
structure Meta where
  health : ℚ
deriving DecidableEq

/-- The engine state read and written by `damagePlayer`. -/
structure GameState where
  localPlayerId : Option String
  localKills : ℕ
  players : List (String × Option Meta)
  respawnScheduled : List String
deriving DecidableEq

/-- `this.players.get(playerId)` on the association-list model of the map;
`some none` is a mesh found but carrying no metadata. -/
def getPlayerMesh (ps : List (String × Option Meta)) (pid : String) :
    Option (Option Meta) :=
  (ps.find? fun q => q.1 == pid).map Prod.snd

/-- Write the new health into the target's metadata. -/
def setPlayerHealth (ps : List (String × Option Meta)) (pid : String) (h : ℚ) :
    List (String × Option Meta) :=
  ps.map fun q => if q.1 == pid then (q.1, some ⟨h⟩) else q

/-- `damagePlayer(playerId, damage)` (engine.ts lines 999-1096): returns
without change when the id is empty or equals the local player's id
(`!playerId || playerId === this.localPlayer?.id`) or when the target has no
mesh or no metadata; otherwise stores the new health and, on a kill,
increments the local player's kill counter and schedules a respawn timer. -/
def damagePlayer (s : GameState) (playerId : String) (damage : ℚ) : GameState :=
  if playerId = "" then s
  else if s.localPlayerId = some playerId then s
  else
    match getPlayerMesh s.players playerId with
    | none => s
    | some none => s
    | some (some m) =>
        let newHealth := damagePlayerStep damage m.health
        let s1 : GameState :=
          { s with players := setPlayerHealth s.players playerId newHealth }
        if newHealth ≤ 0 then
          { s1 with
            localKills :=
              if s1.localPlayerId.isSome then s1.localKills + 1 else s1.localKills,
            respawnScheduled := playerId :: s1.respawnScheduled }
        else s1

/-- C8: a `damagePlayer` call whose target is the local (shooting) player
itself, or whose target has no known snapshot in the player store (no mesh,
or a mesh without metadata), is a total no-op: the state is returned
unchanged and no error is raised. -/
theorem damagePlayer_self_or_unknown_noop :
    ∀ (s : GameState) (pid : String) (d : ℚ),
      (s.localPlayerId = some pid ∨ getPlayerMesh s.players pid = none ∨
        getPlayerMesh s.players pid = some none) →
      damagePlayer s pid d = s := by
  intro s pid d hcase
  by_cases h1 : pid = ""
  · rw [damagePlayer, if_pos h1]
  by_cases h2 : s.localPlayerId = some pid
  · rw [damagePlayer, if_neg h1, if_pos h2]
  rw [damagePlayer, if_neg h1, if_neg h2]
  rcases hcase with hself | hnone | hnometa
  · exact absurd hself h2
  · rw [hnone]
  · rw [hnometa]

/-- Witness for C8: damaging the local player "me", and damaging the unknown
id "ghost", both leave a concrete state untouched. -/
theorem damagePlayer_self_or_unknown_noop_witness :
    damagePlayer ⟨some "me", 0, [("p2", some ⟨100⟩)], []⟩ "me" 34 =
      ⟨some "me", 0, [("p2", some ⟨100⟩)], []⟩ ∧
    damagePlayer ⟨some "me", 0, [("p2", some ⟨100⟩)], []⟩ "ghost" 34 =
      ⟨some "me", 0, [("p2", some ⟨100⟩)], []⟩ := by
  constructor
  · exact damagePlayer_self_or_unknown_noop _ "me" 34 (Or.inl rfl)
  · refine damagePlayer_self_or_unknown_noop _ "ghost" 34 (Or.inr (Or.inl ?_))
    rfl

/-! ## Change classifier for incoming remote player updates
(GameContainer.tsx lines 448-534)

`playerLastStates` is a map from player id to the last applied
`(isJumping, isCrouching, x, y, z, health, lastUpdateTime)` tuple. -/

/-- One entry of `playerLastStates` (GameContainer.tsx lines 398-409). -/
structure LastState where
  isJumping : Bool
  isCrouching : Bool
  x : ℚ
  y : ℚ
  z : ℚ
  health : ℚ
  lastUpdateTime : ℕ
deriving DecidableEq

/-- The fields of an incoming player row used by the classifier. -/
structure PlayerUpdate where
  id : String
  position_x : ℚ
  position_y : ℚ
  position_z : ℚ
  is_jumping : Bool
  is_crouching : Bool
  health : ℚ
deriving DecidableEq

/-- `playerLastStates.get(payload.new.id)`. -/
def lookupLastState (tracking : List (String × LastState)) (pid : String) :
    Option LastState :=
  (tracking.find? fun q => q.1 == pid).map Prod.snd

/-- `isSignificantUpdate` (GameContainer.tsx lines 453-465): true when no
prior record exists, some position axis moved by more than 0.1, a
jump/crouch flag differs, health differs, or more than 500 ms passed since
the last applied update. -/
def isSignificantUpdate (lastState : Option LastState) (u : PlayerUpdate)
    (now : ℕ) : Bool :=
  match lastState with
  | none => true
  | some r =>
      decide ((1 : ℚ)/10 < |r.x - u.position_x|) ||
      decide ((1 : ℚ)/10 < |r.y - u.position_y|) ||
      decide ((1 : ℚ)/10 < |r.z - u.position_z|) ||
      (r.isJumping != u.is_jumping) ||
      (r.isCrouching != u.is_crouching) ||
      decide (r.health ≠ u.health) ||
      decide ((500 : ℤ) < (now : ℤ) - (r.lastUpdateTime : ℤ))

/-- The tracking record written on apply (GameContainer.tsx lines 514-523). -/
def newLastState (u : PlayerUpdate) (now : ℕ) : LastState :=
  ⟨u.is_jumping, u.is_crouching, u.position_x, u.position_y, u.position_z,
    u.health, now⟩

/-- `playerLastStates.set(id, record)`: replace the entry if present,
append it otherwise. -/
def setLastState (tracking : List (String × LastState)) (pid : String)
    (r : LastState) : List (String × LastState) :=
  if (tracking.find? fun q => q.1 == pid).isSome then
    tracking.map fun q => if q.1 == pid then (pid, r) else q
  else tracking ++ [(pid, r)]

/-- The classifier step of the `listenForPlayerUpdates` callback
(GameContainer.tsx lines 448-534): returns whether the update was applied,
and the tracking map afterwards.  The update is dropped exactly when a prior
record exists, the update is not significant, and it arrived less than 50 ms
(`minTimeBetweenUpdates`) after the last applied update. -/
def processPlayerUpdate (tracking : List (String × LastState))
    (u : PlayerUpdate) (now : ℕ) : Bool × List (String × LastState) :=
  let lastState := lookupLastState tracking u.id
  match lastState with
  | some r =>
      if isSignificantUpdate (some r) u now = false ∧
          (now : ℤ) - (r.lastUpdateTime : ℤ) < 50 then
        (false, tracking)
      else (true, setLastState tracking u.id (newLastState u now))
  | none => (true, setLastState tracking u.id (newLastState u now))

/-- The claim's significance condition, stated as a proposition. -/
def SignificantDelta (r : LastState) (u : PlayerUpdate) (now : ℕ) : Prop :=
  (1 : ℚ)/10 < |r.x - u.position_x| ∨
  (1 : ℚ)/10 < |r.y - u.position_y| ∨
  (1 : ℚ)/10 < |r.z - u.position_z| ∨
  r.isJumping ≠ u.is_jumping ∨
  r.isCrouching ≠ u.is_crouching ∨
  r.health ≠ u.health ∨
  (500 : ℤ) < (now : ℤ) - (r.lastUpdateTime : ℤ)

instance (r : LastState) (u : PlayerUpdate) (now : ℕ) :
    Decidable (SignificantDelta r u now) := by
  rw [SignificantDelta]; infer_instance

theorem isSignificantUpdate_iff (r : LastState) (u : PlayerUpdate) (now : ℕ) :
    isSignificantUpdate (some r) u now = true ↔ SignificantDelta r u now := by
  simp [isSignificantUpdate, SignificantDelta, Bool.or_eq_true,
    decide_eq_true_eq, bne_iff_ne, or_assoc]

/-- C3: with a stored tracking record, an incoming update is applied whenever
some axis moved by more than 0.1, a jump/crouch flag differs, health differs,
or more than 500 ms elapsed since the last applied update; an update with no
such delta arriving less than 50 ms after the last applied update is dropped
with the tracking map unchanged; an update with no prior record is always
applied. -/
theorem classifier_apply_drop :
    ∀ (tracking : List (String × LastState)) (u : PlayerUpdate) (now : ℕ),
      (lookupLastState tracking u.id = none →
        processPlayerUpdate tracking u now =
          (true, setLastState tracking u.id (newLastState u now))) ∧
      (∀ r, lookupLastState tracking u.id = some r →
        (SignificantDelta r u now →
          processPlayerUpdate tracking u now =
            (true, setLastState tracking u.id (newLastState u now))) ∧
        (¬ SignificantDelta r u now →
          (now : ℤ) - (r.lastUpdateTime : ℤ) < 50 →
          processPlayerUpdate tracking u now = (false, tracking))) := by
  intro tracking u now
  constructor
  · intro hnone
    rw [processPlayerUpdate, hnone]
  · intro r hr
    constructor
    · intro hsig
      simp only [processPlayerUpdate, hr]
      rw [if_neg]
      rintro ⟨hfalse, -⟩
      rw [(isSignificantUpdate_iff r u now).mpr hsig] at hfalse
      exact absurd hfalse (by decide)
    · intro hnotsig htime
      simp only [processPlayerUpdate, hr]
      rw [if_pos]
      refine ⟨?_, htime⟩
      rcases Bool.eq_false_or_eq_true (isSignificantUpdate (some r) u now) with
        ht | hf
      · exact absurd ((isSignificantUpdate_iff r u now).mp ht) hnotsig
      · exact hf

/-- Witness for C3: an identical update 20 ms after the last applied one is
dropped, and a first-sighting update is applied. -/
theorem classifier_apply_drop_witness :
    lookupLastState [("p7", ⟨false, false, 0, 0, 0, 100, 1000⟩)] "p7" =
      some ⟨false, false, 0, 0, 0, 100, 1000⟩ ∧
    ¬ SignificantDelta ⟨false, false, 0, 0, 0, 100, 1000⟩
        ⟨"p7", 0, 0, 0, false, false, 100⟩ 1020 ∧
    ((1020 : ℤ) - (1000 : ℕ) < 50) ∧
    processPlayerUpdate [("p7", ⟨false, false, 0, 0, 0, 100, 1000⟩)]
        ⟨"p7", 0, 0, 0, false, false, 100⟩ 1020 =
      (false, [("p7", ⟨false, false, 0, 0, 0, 100, 1000⟩)]) ∧
    (processPlayerUpdate [] ⟨"p7", 0, 0, 0, false, false, 100⟩ 1020).1 =
      true := by
  have hlook : lookupLastState [("p7", ⟨false, false, 0, 0, 0, 100, 1000⟩)]
      "p7" = some ⟨false, false, 0, 0, 0, 100, 1000⟩ := rfl
  have hnotsig : ¬ SignificantDelta ⟨false, false, 0, 0, 0, 100, 1000⟩
      ⟨"p7", 0, 0, 0, false, false, 100⟩ 1020 := by
    rw [SignificantDelta]
    push_neg
    norm_num
  have htime : (1020 : ℤ) - (1000 : ℕ) < 50 := by norm_num
  refine ⟨hlook, hnotsig, htime, ?_, ?_⟩
  · exact ((classifier_apply_drop _ _ 1020).2 _ hlook).2 hnotsig htime
  · rw [(classifier_apply_drop [] ⟨"p7", 0, 0, 0, false, false, 100⟩ 1020).1
      rfl]

/-! ## Adaptive throttle `debouncedSendPlayerUpdate` (engine.ts lines 155-184)

The closure keeps `lastUpdateTime` (time of the last actual send) and one
pending `setTimeout`.  Each call clears the pending timeout and schedules a
new one `timeToWait` ms after the call. -/

/-- The closure state of `debouncedSendPlayerUpdate`: the time of the last
completed send and the pending timeout (its fire time and captured payload). -/
structure ThrottleState (α : Type) where
  lastUpdateTime : ℕ
  pendingTimeout : Option (ℕ × α)
deriving DecidableEq

/-- One call to `debouncedSendPlayerUpdate(player)` (engine.ts lines
160-183): `clearTimeout` then `setTimeout(..., timeToWait)` where
`timeToWait = (now - lastUpdateTime < 300) ? 300 : 50`; the timeout is
scheduled `timeToWait` ms after *the call*. -/
def debouncedSendPlayerUpdateCall {α : Type} (s : ThrottleState α) (now : ℕ)
    (p : α) : ThrottleState α :=
  let timeToWait : ℕ :=
    if (now : ℤ) - (s.lastUpdateTime : ℤ) < 300 then 300 else 50
  { s with pendingTimeout := some (now + timeToWait, p) }

/-- The pending timeout firing at time `now`: sends the captured payload and
records `lastUpdateTime = Date.now()` (engine.ts lines 170-182). -/
def throttleTimerFire {α : Type} (s : ThrottleState α) (now : ℕ) :
    ThrottleState α × Option α :=
  match s.pendingTimeout with
  | some (t, p) =>
      if now = t then (⟨now, none⟩, some p) else (s, none)
  | none => (s, none)

/-- C4 counterexample: with the last send at t=1000, a call at t=1100
(100 ms < 300 ms elapsed) schedules the send at t=1400 — `minInterval`
after the call — not at t=1300 = lastSend + minInterval as the claim
states. -/
theorem throttle_reschedule_cex :
    ((1100 : ℤ) - ((1000 : ℕ) : ℤ) < 300) ∧
    debouncedSendPlayerUpdateCall (α := ℕ) ⟨1000, none⟩ 1100 7 =
      ⟨1000, some (1400, 7)⟩ ∧
    (1400 : ℕ) ≠ 1000 + 300 := by
  refine ⟨by norm_num, ?_, by norm_num⟩
  rw [debouncedSendPlayerUpdateCall]
  norm_num

/-- C4 (amended): if less than `minInterval` (300 ms) has elapsed since the
last send, the next send is scheduled 300 ms after the *call* (hence at
least 300 ms after the last send) rather than the update being dropped;
otherwise it is scheduled after 50 ms; and the pending timeout always holds
exactly the most recent payload supplied, which is sent when it fires. -/
theorem throttle_schedule_amended {α : Type} :
    ∀ (s : ThrottleState α) (now : ℕ) (p : α),
      s.lastUpdateTime ≤ now →
      (((now : ℤ) - (s.lastUpdateTime : ℤ) < 300 →
        (debouncedSendPlayerUpdateCall s now p).pendingTimeout =
          some (now + 300, p) ∧
        s.lastUpdateTime + 300 ≤ now + 300) ∧
      (¬ ((now : ℤ) - (s.lastUpdateTime : ℤ) < 300) →
        (debouncedSendPlayerUpdateCall s now p).pendingTimeout =
          some (now + 50, p)) ∧
      (∀ t q,
        (debouncedSendPlayerUpdateCall s now p).pendingTimeout = some (t, q) →
        q = p ∧
        throttleTimerFire (debouncedSendPlayerUpdateCall s now p) t =
          (⟨t, none⟩, some p))) := by
  intro s now p hle
  refine ⟨?_, ?_, ?_⟩
  · intro hlt
    rw [debouncedSendPlayerUpdateCall, if_pos hlt]
    exact ⟨rfl, by omega⟩
  · intro hge
    rw [debouncedSendPlayerUpdateCall, if_neg hge]
  · intro t q hpt
    simp only [debouncedSendPlayerUpdateCall] at hpt
    obtain ⟨ht, hq⟩ := Prod.mk.injEq .. ▸ Option.some.inj hpt
    subst ht
    subst hq
    refine ⟨rfl, ?_⟩
    simp only [throttleTimerFire, debouncedSendPlayerUpdateCall]
    rw [if_pos trivial]

/-- Witness for C4 (amended): the burst case (call 100 ms after the last
send) and the quiet case (call 400 ms after the last send). -/
theorem throttle_schedule_amended_witness :
    (debouncedSendPlayerUpdateCall (α := ℕ) ⟨1000, none⟩ 1100 7).pendingTimeout
        = some (1400, 7) ∧
    (debouncedSendPlayerUpdateCall (α := ℕ) ⟨1000, none⟩ 1400 8).pendingTimeout
        = some (1450, 8) := by
  constructor
  · exact ((throttle_schedule_amended ⟨1000, none⟩ 1100 7 (by norm_num)).1
      (by norm_num)).1
  · exact (throttle_schedule_amended ⟨1000, none⟩ 1400 8 (by norm_num)).2.1
      (by norm_num)

/-! ## Trailing debounce (engine.ts lines 124-152)

`debounce(func, wait)` keeps one shared timeout: each call clears it and
schedules `func` with the *latest* arguments `wait` ms later.
`debouncedUpdateHealth` and `debouncedIncrementKills` use `wait = 300`;
the timer is shared across all player ids. -/

/-- Timed semantics of a `debounce`d function over a finite, time-ordered
call list: each call at time `t` cancels the pending timeout and schedules
`(t + wait, args)`; a pending timeout whose fire time is reached before the
next call fires first; after the last call the remaining timeout fires.
Returns the list of actual invocations (fire time, arguments). -/
def debounceFires {α : Type} (wait : ℕ) :
    List (ℕ × α) → Option (ℕ × α) → List (ℕ × α)
  | [], pending =>
      match pending with
      | some fire => [fire]
      | none => []
  | (t, a) :: rest, pending =>
      match pending with
      | some (f, b) =>
          if f ≤ t then (f, b) :: debounceFires wait rest (some (t + wait, a))
          else debounceFires wait rest (some (t + wait, a))
      | none => debounceFires wait rest (some (t + wait, a))

/-- The invocations produced by a call sequence against a fresh debounced
function (no pending timeout). -/
def debounceRun {α : Type} (wait : ℕ) (calls : List (ℕ × α)) : List (ℕ × α) :=
  debounceFires wait calls none

/-- Calls are time-ordered and each arrives before the previous call's
timeout would fire. -/
def WithinQuietWindow {α : Type} (wait : ℕ) (calls : List (ℕ × α)) : Prop :=
  List.Chain' (fun p q => p.1 ≤ q.1 ∧ q.1 < p.1 + wait) calls

theorem debounceFires_quiet {α : Type} (wait : ℕ) :
    ∀ (calls : List (ℕ × α)) (t0 : ℕ) (a0 : α),
      WithinQuietWindow wait ((t0, a0) :: calls) →
      ∀ l, ((t0, a0) :: calls).getLast? = some l →
      debounceFires wait calls (some (t0 + wait, a0)) = [(l.1 + wait, l.2)] := by
  intro calls
  induction calls with
  | nil =>
      intro t0 a0 _ l hl
      simp only [List.getLast?] at hl
      cases hl
      rfl
  | cons c rest ih =>
      intro t0 a0 hchain l hl
      obtain ⟨⟨-, hlt⟩, htail⟩ := List.chain'_cons.mp hchain
      rw [debounceFires, if_neg (by omega)]
      exact ih c.1 c.2 htail l (by rw [← hl, List.getLast?_cons_cons])

/-- C7: any nonempty sequence of calls to the debounced health updater, all
for the same player id and each within the 300 ms quiet window of its
predecessor, produces exactly one network write, carrying the id and health
value of the last call, 300 ms after it. -/
theorem debounced_health_single_write :
    ∀ (pid : String) (calls : List (ℕ × (String × ℚ))) (l : ℕ × (String × ℚ)),
      calls.getLast? = some l →
      WithinQuietWindow 300 calls →
      (∀ c ∈ calls, c.2.1 = pid) →
      debounceRun 300 calls = [(l.1 + 300, l.2)] ∧ l.2.1 = pid := by
  intro pid calls l hlast hquiet hids
  obtain ⟨c0, rest, rfl⟩ : ∃ c0 rest, calls = c0 :: rest := by
    cases calls with
    | nil => simp at hlast
    | cons c0 rest => exact ⟨c0, rest, rfl⟩
  have hlmem : l ∈ c0 :: rest := by
    obtain ⟨hne, heq⟩ :=
      List.mem_getLast?_eq_getLast (Option.mem_def.mpr hlast)
    rw [heq]
    exact List.getLast_mem hne
  refine ⟨?_, hids l hlmem⟩
  rw [debounceRun, debounceFires]
  exact debounceFires_quiet 300 rest c0.1 c0.2 hquiet l hlast

/-- Witness for C7: three calls for player "p1" at t = 0, 100, 200 yield the
single write (500, ("p1", 32)). -/
theorem debounced_health_single_write_witness :
    debounceRun 300 [(0, ("p1", (66 : ℚ))), (100, ("p1", 50)), (200, ("p1", 32))]
      = [(500, ("p1", 32))] := by
  refine (debounced_health_single_write "p1"
    [(0, ("p1", (66 : ℚ))), (100, ("p1", 50)), (200, ("p1", 32))]
    (200, ("p1", 32)) rfl ?_ ?_).1
  · refine List.chain'_cons.mpr ⟨⟨by norm_num, by norm_num⟩, ?_⟩
    refine List.chain'_cons.mpr ⟨⟨by norm_num, by norm_num⟩, ?_⟩
    exact List.chain'_singleton _
  · intro c hc
    fin_cases hc <;> rfl

/-- C10: the debounced health/kill writers keep one timer that is not keyed
by player id: two calls within the 300 ms window for two *different* ids
produce a single write for the id of the last call; the earlier id's write
is silently discarded.  Shown for the health writer's argument shape
`(id, health)` and the kill writer's argument shape `id`. -/
theorem debounce_not_keyed_by_id :
    ∀ (t1 t2 : ℕ) (id1 id2 : String) (h1 h2 : ℚ),
      id1 ≠ id2 → t1 ≤ t2 → t2 < t1 + 300 →
      debounceRun 300 [(t1, (id1, h1)), (t2, (id2, h2))] =
        [(t2 + 300, (id2, h2))] ∧
      debounceRun 300 [(t1, id1), (t2, id2)] = [(t2 + 300, id2)] := by
  intro t1 t2 id1 id2 h1 h2 _ hle hlt
  constructor
  · rw [debounceRun, debounceFires, debounceFires, if_neg (by omega),
      debounceFires]
  · rw [debounceRun, debounceFires, debounceFires, if_neg (by omega),
      debounceFires]

/-- Witness for C10: calls for "p1" then "p2" 100 ms apart produce only the
"p2" write. -/
theorem debounce_not_keyed_by_id_witness :
    debounceRun 300 [(0, ("p1", (66 : ℚ))), (100, ("p2", 32))] =
      [(400, ("p2", 32))] := by
  exact (debounce_not_keyed_by_id 0 100 "p1" "p2" 66 32 (by decide)
    (by norm_num) (by norm_num)).1

/-! ## `deletePlayer` fallback (supabase/client.ts lines 416-504) -/

/-- A database error as surfaced by the client library (only the code
matters to `deletePlayer`). -/
structure DbError where
  code : String
deriving DecidableEq

/-- The result shape of `deletePlayer`. -/
inductive DeleteResult where
  | errorResult (e : DbError) : DeleteResult
  | success (wasMarkedInactive : Bool) : DeleteResult
deriving DecidableEq

/-- `deletePlayer(id)` (client.ts lines 416-504) as a function of the
outcomes of its four database operations: the existence check, the
projectile cleanup (whose failure is logged and ignored), the hard delete of
the player row, and the fallback inactive-flag update.  A delete failure
with code "409" or "23503" degrades to the inactive-flag update; if that
update succeeds the call reports `{success: true, wasMarkedInactive: true}`. -/
def deletePlayer (checkError : Option DbError)
    (deleteProjectilesError : Option DbError)
    (deleteError : Option DbError) (updateError : Option DbError) :
    DeleteResult :=
  match checkError with
  | some e => .errorResult e
  | none =>
      -- deleteProjectilesError only produces a warning; flow continues
      match deleteError with
      | some e =>
          if e.code = "409" ∨ e.code = "23503" then
            match updateError with
            | some ue => .errorResult ue
            | none => .success true
          else .errorResult e
      | none => .success false

/-- C9: when the hard delete fails with a delete-conflict error (code "409"
or the referential-constraint code "23503") and the fallback inactive-flag
update succeeds, `deletePlayer` reports success with the was-marked-inactive
indication instead of propagating the error. -/
theorem deletePlayer_conflict_degrades :
    ∀ (dpe : Option DbError) (e : DbError),
      e.code = "409" ∨ e.code = "23503" →
      deletePlayer none dpe (some e) none = .success true := by
  intro dpe e hcode
  rw [deletePlayer, if_pos hcode]

/-- Witness for C9: a 409 conflict on the hard delete with a successful
fallback update yields `success true`. -/
theorem deletePlayer_conflict_degrades_witness :
    deletePlayer none none (some ⟨"409"⟩) none = .success true :=
  deletePlayer_conflict_degrades none ⟨"409"⟩ (Or.inl rfl)

/-! ## Death and respawn timing (engine.ts lines 1069-1086, 1172-1236,
2501-2562)

Two distinct death paths exist.  On the shooter's client, `damagePlayer`
schedules a `setTimeout` that resets the victim's health and position
`respawnTime` (3000 ms) after the kill.  On the victim's own client, the
remote-projectile hit handler resets `localPlayer.health` to `maxHealth`
*immediately* at the moment of death and calls `respawnLocalPlayer()`
synchronously. -/

/-- The local player fields touched by the remote-projectile hit handler. -/
structure LocalPlayerState where
  health : ℚ
  deaths : ℕ
  isJumping : Bool
deriving DecidableEq

/-- The remote-projectile hit handler applied to the local player
(engine.ts lines 2501-2562 plus `respawnLocalPlayer`, lines 1200-1236):
`newHealth = Math.max(0, health - exactDamage)`, stored floored; if the
result is ≤ 0 the handler *immediately* sets health back to `maxHealth`,
respawns, and increments deaths — with no `respawnTime` delay. -/
def onRemoteProjectileHit (p : LocalPlayerState) : LocalPlayerState :=
  let newHealth := max 0 (p.health - (exactDamage : ℚ))
  let p1 : LocalPlayerState := { p with health := ((⌊newHealth⌋ : ℤ) : ℚ) }
  if p1.health ≤ 0 then
    { p1 with health := maxHealth, deaths := p1.deaths + 1, isJumping := false }
  else p1

/-- A remote victim as tracked on the shooter's client: stored health, the
pending respawn timer (absolute fire time), and whether the mesh was
disposed. -/
structure VictimState where
  health : ℚ
  respawnAt : Option ℕ
  disposed : Bool
deriving DecidableEq

/-- The kill branch of `damagePlayer` on the shooter's client (engine.ts
lines 1018-1086): store the new health and, when it is ≤ 0, schedule the
respawn `setTimeout` for `respawnTime` ms later; health is *not* reset at
the moment of death. -/
def damagePlayerTimed (now : ℕ) (vs : VictimState) : VictimState :=
  let newHealth := damagePlayerNewHealth vs.health
  if newHealth ≤ 0 then
    { vs with health := newHealth, respawnAt := some (now + respawnTime) }
  else { vs with health := newHealth }

/-- The respawn `setTimeout` callback (engine.ts lines 1070-1086): if the
mesh is not disposed, reset health to `maxHealth` (and move the mesh to a
fresh random spawn position). -/
def respawnTimerFire (vs : VictimState) : VictimState :=
  if vs.disposed then { vs with respawnAt := none }
  else { vs with health := maxHealth, respawnAt := none }

/-- The spawn radius used by `getRandomSpawnPosition`
(engine.ts line 1174). -/
def spawnRadius : ℝ := 80

/-- `getRandomSpawnPosition` (engine.ts lines 1172-1197) with the two
`Math.random()` draws `u` (angle) and `v` (radius) as inputs:
`angle = u * 2π`, `distance = sqrt(v) * spawnRadius`, position
`(cos(angle) * distance, 0, sin(angle) * distance)`. -/
noncomputable def getRandomSpawnPosition (u v : ℝ) : ℝ × ℝ × ℝ :=
  let angle := u * (2 * Real.pi)
  let distance := Real.sqrt v * spawnRadius
  (Real.cos angle * distance, 0, Real.sin angle * distance)

/-- C5 counterexample: on the victim's own client, a fatal remote-projectile
hit at health 32 leaves health at `maxHealth` *immediately* — the reset
happens at the moment of death, not `respawnTime` (3000 ms) later. -/
theorem local_death_immediate_reset_cex :
    onRemoteProjectileHit ⟨32, 5, false⟩ = ⟨maxHealth, 6, false⟩ ∧
    maxHealth = 100 := by
  constructor
  · simp only [onRemoteProjectileHit, exactDamage_eq]
    norm_num [max_def]
  · rfl

/-- C5 (amended): on the shooter's client a killing `damagePlayer` call
leaves the victim's health at 0 and schedules the respawn exactly
`respawnTime` = 3000 ms later; only the timer's callback resets health to
`maxHealth`, with the position re-randomized within `spawnRadius` by
square-root-distributed radius sampling (squared distance from the origin
is exactly `v * spawnRadius²` for the uniform draw `v`, hence within the
radius).  On the victim's own client, by contrast, a fatal hit resets
health to `maxHealth` and increments deaths immediately at the moment of
death. -/
theorem respawn_timing_amended :
    ∀ (now : ℕ) (vs : VictimState) (u v : ℝ),
      damagePlayerNewHealth vs.health = 0 → vs.disposed = false →
      0 ≤ v → v ≤ 1 →
      (damagePlayerTimed now vs).health = 0 ∧
      (damagePlayerTimed now vs).respawnAt = some (now + respawnTime) ∧
      respawnTime = 3000 ∧
      (respawnTimerFire (damagePlayerTimed now vs)).health = maxHealth ∧
      (∀ q : LocalPlayerState, 0 < q.health → q.health ≤ (exactDamage : ℚ) →
        (onRemoteProjectileHit q).health = maxHealth ∧
        (onRemoteProjectileHit q).deaths = q.deaths + 1) ∧
      (getRandomSpawnPosition u v).1 ^ 2 + (getRandomSpawnPosition u v).2.2 ^ 2
          = v * spawnRadius ^ 2 ∧
      v * spawnRadius ^ 2 ≤ spawnRadius ^ 2 := by
  intro now vs u v hdep hdisp hv0 hv1
  have hstep : damagePlayerTimed now vs =
      { vs with health := 0, respawnAt := some (now + respawnTime) } := by
    rw [damagePlayerTimed]
    rw [hdep, if_pos le_rfl]
  have hlocal : ∀ q : LocalPlayerState, 0 < q.health →
      q.health ≤ (exactDamage : ℚ) →
      (onRemoteProjectileHit q).health = maxHealth ∧
      (onRemoteProjectileHit q).deaths = q.deaths + 1 := by
    intro q hq0 hq34
    have hmax : max 0 (q.health - (exactDamage : ℚ)) = 0 :=
      max_eq_left (by linarith)
    rw [onRemoteProjectileHit]
    rw [hmax]
    norm_num
  have hgeom :
      (getRandomSpawnPosition u v).1 ^ 2 + (getRandomSpawnPosition u v).2.2 ^ 2
        = v * spawnRadius ^ 2 := by
    rw [getRandomSpawnPosition]
    have htrig := Real.cos_sq_add_sin_sq (u * (2 * Real.pi))
    have hsq : Real.sqrt v ^ 2 = v := Real.sq_sqrt hv0
    calc (Real.cos (u * (2 * Real.pi)) * (Real.sqrt v * spawnRadius)) ^ 2 +
          (Real.sin (u * (2 * Real.pi)) * (Real.sqrt v * spawnRadius)) ^ 2
        = (Real.cos (u * (2 * Real.pi)) ^ 2 +
            Real.sin (u * (2 * Real.pi)) ^ 2) *
            (Real.sqrt v ^ 2 * spawnRadius ^ 2) := by ring
      _ = v * spawnRadius ^ 2 := by rw [htrig, hsq, one_mul]
  refine ⟨by rw [hstep], by rw [hstep], rfl, ?_, hlocal, hgeom, ?_⟩
  · rw [hstep, respawnTimerFire]
    simp [hdisp]
  · calc v * spawnRadius ^ 2 ≤ 1 * spawnRadius ^ 2 := by
          apply mul_le_mul_of_nonneg_right hv1
          positivity
      _ = spawnRadius ^ 2 := one_mul _

/-- Witness for C5 (amended): a kill at health 32 at time 0 schedules the
respawn timer for t = 3000 and its callback restores `maxHealth`. -/
theorem respawn_timing_amended_witness :
    (damagePlayerTimed 0 ⟨32, none, false⟩).respawnAt = some (0 + respawnTime) ∧
    (respawnTimerFire (damagePlayerTimed 0 ⟨32, none, false⟩)).health
      = maxHealth :=
  ⟨(respawn_timing_amended 0 ⟨32, none, false⟩ 0 1 damage_from_32 rfl
      (by norm_num) (by norm_num)).2.1,
   (respawn_timing_amended 0 ⟨32, none, false⟩ 0 1 damage_from_32 rfl
      (by norm_num) (by norm_num)).2.2.2.1⟩

/-! ## Projectile lifecycle (engine.ts lines 820-967 and 2400-2616)

Each projectile has a per-frame `updateFunction` registered on the scene
and a 3000 ms backup `setTimeout`.  Disposal happens on hit, on travelling
beyond 100 units, or when the timeout fires; every `dispose()` call in the
source is guarded by `!projectile.isDisposed()` (the remote hit branch
runs inside a block that already checked it).  `disposeCount` counts actual
`dispose()` executions so "exactly once" is provable. -/

/-- A 3-component vector over `ℚ` (Babylon `Vector3`). -/
structure Vec3 where
  x : ℚ
  y : ℚ
  z : ℚ
deriving DecidableEq

def vadd (a b : Vec3) : Vec3 := ⟨a.x + b.x, a.y + b.y, a.z + b.z⟩

def vscale (a : Vec3) (s : ℚ) : Vec3 := ⟨a.x * s, a.y * s, a.z * s⟩

/-- Squared distance; the source's `distance < 1.0` and `length() > 100`
become `distSq < 1` and `distSq > 10000`. -/
def distSq (a b : Vec3) : ℚ :=
  (a.x - b.x) ^ 2 + (a.y - b.y) ^ 2 + (a.z - b.z) ^ 2

/-- A locally simulated projectile (`createProjectile`, engine.ts lines
820-967): position, velocity, Babylon's disposed flag, whether the
`updateFunction` is still registered, and the number of `dispose()`
executions. -/
structure LocalProj where
  pos : Vec3
  velocity : Vec3
  disposed : Bool
  registered : Bool
  disposeCount : ℕ
deriving DecidableEq

/-- `projectile.dispose()`. -/
def localMeshDispose (pr : LocalProj) : LocalProj :=
  { pr with disposed := true, disposeCount := pr.disposeCount + 1 }

/-- `if (!projectile.isDisposed()) projectile.dispose()`. -/
def localGuardedDispose (pr : LocalProj) : LocalProj :=
  if pr.disposed = false then localMeshDispose pr else pr

/-- The hit-detection `forEach` over other players (engine.ts lines
908-925): for each non-local player, if the projectile is not disposed and
within 1 unit of the torso (`position + (0,1,0)`), the target is damaged
(`damagePlayer`, modelled above), the update function is unregistered and
the projectile disposed behind the `isDisposed` guard. -/
def localProjHitScan (localId : Option String)
    (players : List (String × Vec3)) (pr : LocalProj) : LocalProj :=
  players.foldl
    (fun pr1 q =>
      if some q.1 ≠ localId ∧ pr1.disposed = false then
        if distSq pr1.pos (vadd q.2 ⟨0, 1, 0⟩) < 1 then
          localGuardedDispose { pr1 with registered := false }
        else pr1
      else pr1)
    pr

/-- The max-range check (engine.ts lines 928-936): if not disposed and
farther than 100 units from the camera, unregister and dispose (guarded). -/
def localProjRangeCheck (cameraPos : Vec3) (pr : LocalProj) : LocalProj :=
  if pr.disposed = false ∧ 10000 < distSq pr.pos cameraPos then
    localGuardedDispose { pr with registered := false }
  else pr

/-- One frame of the local projectile's `updateFunction` (engine.ts lines
858-944): when still registered, move by `velocity * 0.016` and scan for
hits (both inside the not-disposed block), then run the range check. -/
def localProjFrame (localId : Option String) (cameraPos : Vec3)
    (players : List (String × Vec3)) (pr : LocalProj) : LocalProj :=
  if pr.registered = false then pr
  else
    localProjRangeCheck cameraPos
      (if pr.disposed = false then
        localProjHitScan localId players
          { pr with pos := vadd pr.pos (vscale pr.velocity (16/1000)) }
      else pr)

/-- The 3000 ms backup `setTimeout` callback (engine.ts lines 950-960):
unregister, then guarded dispose. -/
def localProjTimeoutFire (pr : LocalProj) : LocalProj :=
  localGuardedDispose { pr with registered := false }

/-- The asynchronous events that can reach a local projectile. -/
inductive ProjEvent where
  | frame (localId : Option String) (cameraPos : Vec3)
      (players : List (String × Vec3)) : ProjEvent
  | timeoutFire : ProjEvent

def localProjStep (pr : LocalProj) : ProjEvent → LocalProj
  | .frame localId cameraPos players =>
      localProjFrame localId cameraPos players pr
  | .timeoutFire => localProjTimeoutFire pr

def localProjRun (pr : LocalProj) (evs : List ProjEvent) : LocalProj :=
  evs.foldl localProjStep pr

/-- A remotely announced projectile replayed locally
(`createRemoteProjectile`, engine.ts lines 2400-2616): it additionally
keeps its original spawn position (the range check measures from it) and
the local player state mutated on hit. -/
structure RemoteProj where
  pos : Vec3
  origin : Vec3
  velocity : Vec3
  player : LocalPlayerState
  disposed : Bool
  registered : Bool
  disposeCount : ℕ
deriving DecidableEq

def remoteMeshDispose (st : RemoteProj) : RemoteProj :=
  { st with disposed := true, disposeCount := st.disposeCount + 1 }

def remoteGuardedDispose (st : RemoteProj) : RemoteProj :=
  if st.disposed = false then remoteMeshDispose st else st

/-- `projectile.position.addInPlace(velocity.scale(0.016))` behind the
not-disposed check (engine.ts lines 2479-2484). -/
def remoteProjMove (st : RemoteProj) : RemoteProj :=
  if st.disposed = false then
    { st with pos := vadd st.pos (vscale st.velocity (16/1000)) }
  else st

/-- The collision check against the local camera (engine.ts lines
2486-2571): when a camera exists, the projectile is not disposed and within
1 unit, the local player takes the hit (`onRemoteProjectileHit`), the
update function is unregistered and the projectile disposed (this
`dispose()` runs inside the not-disposed block). -/
def remoteProjHitCheck (cam : Option Vec3) (st : RemoteProj) : RemoteProj :=
  match cam with
  | some c =>
      if st.disposed = false then
        if distSq st.pos c < 1 then
          remoteMeshDispose
            { st with
                player := onRemoteProjectileHit st.player,
                registered := false }
        else st
      else st
  | none => st

/-- The max-range check against the original spawn position (engine.ts
lines 2574-2589). -/
def remoteProjRangeCheck (st : RemoteProj) : RemoteProj :=
  if st.disposed = false ∧ 10000 < distSq st.pos st.origin then
    remoteGuardedDispose { st with registered := false }
  else st

/-- One frame of the remote projectile's `updateFunction` (engine.ts lines
2477-2597). -/
def remoteProjFrame (cam : Option Vec3) (st : RemoteProj) : RemoteProj :=
  if st.registered = false then st
  else remoteProjRangeCheck (remoteProjHitCheck cam (remoteProjMove st))

/-- The remote projectile's 3000 ms backup timeout (engine.ts lines
2603-2615): unregister, then guarded dispose. -/
def remoteProjTimeoutFire (st : RemoteProj) : RemoteProj :=
  remoteGuardedDispose { st with registered := false }

/-- The asynchronous events that can reach a remote projectile; the frame
event carries the camera position when a local player/camera exists. -/
inductive RemoteEvent where
  | frame (cam : Option Vec3) : RemoteEvent
  | timeoutFire : RemoteEvent

def remoteProjStep (st : RemoteProj) : RemoteEvent → RemoteProj
  | .frame cam => remoteProjFrame cam st
  | .timeoutFire => remoteProjTimeoutFire st

def remoteProjRun (st : RemoteProj) (evs : List RemoteEvent) : RemoteProj :=
  evs.foldl remoteProjStep st

/-- The dispose-count discipline: `dispose()` has run exactly once iff the
disposed flag is set. -/
def LocalProjOK (pr : LocalProj) : Prop :=
  pr.disposeCount = if pr.disposed then 1 else 0

def RemoteProjOK (st : RemoteProj) : Prop :=
  st.disposeCount = if st.disposed then 1 else 0

theorem localGuardedDispose_ok (pr : LocalProj) (h : LocalProjOK pr) :
    LocalProjOK (localGuardedDispose pr) := by
  rw [LocalProjOK] at h
  rw [localGuardedDispose]
  split
  · next hfalse =>
      rw [hfalse] at h
      rw [LocalProjOK, localMeshDispose]
      simpa using h
  · exact h

theorem localGuardedDispose_disposed (pr : LocalProj) :
    (localGuardedDispose pr).disposed = true := by
  rw [localGuardedDispose]
  split
  · rw [localMeshDispose]
  · next hne => simpa using hne

theorem localHitScan_ok (localId : Option String)
    (players : List (String × Vec3)) :
    ∀ (pr : LocalProj), LocalProjOK pr →
      LocalProjOK (localProjHitScan localId players pr) := by
  induction players with
  | nil => intro pr h; exact h
  | cons q rest ih =>
      intro pr h
      rw [localProjHitScan, List.foldl_cons]
      show LocalProjOK (localProjHitScan localId rest _)
      apply ih
      split
      · split
        · exact localGuardedDispose_ok _ h
        · exact h
      · exact h

theorem localHitScan_of_disposed (localId : Option String)
    (players : List (String × Vec3)) :
    ∀ (pr : LocalProj), pr.disposed = true →
      localProjHitScan localId players pr = pr := by
  induction players with
  | nil => intro pr _; rfl
  | cons q rest ih =>
      intro pr h
      rw [localProjHitScan, List.foldl_cons]
      show localProjHitScan localId rest _ = pr
      rw [if_neg (by simp [h])]
      exact ih pr h

theorem localRangeCheck_ok (cameraPos : Vec3) (pr : LocalProj)
    (h : LocalProjOK pr) : LocalProjOK (localProjRangeCheck cameraPos pr) := by
  rw [localProjRangeCheck]
  split
  · exact localGuardedDispose_ok _ h
  · exact h

theorem localStep_ok (pr : LocalProj) (e : ProjEvent) (h : LocalProjOK pr) :
    LocalProjOK (localProjStep pr e) := by
  cases e with
  | frame localId cameraPos players =>
      show LocalProjOK (localProjFrame localId cameraPos players pr)
      rw [localProjFrame]
      split
      · exact h
      · apply localRangeCheck_ok
        split
        · exact localHitScan_ok localId players _ h
        · exact h
  | timeoutFire =>
      exact localGuardedDispose_ok _ h

theorem localStep_mono (pr : LocalProj) (e : ProjEvent)
    (h : pr.disposed = true) : (localProjStep pr e).disposed = true := by
  cases e with
  | frame localId cameraPos players =>
      show (localProjFrame localId cameraPos players pr).disposed = true
      rw [localProjFrame]
      split
      · exact h
      · rw [if_neg (by simp [h]), localProjRangeCheck, if_neg (by simp [h])]
        exact h
  | timeoutFire =>
      exact localGuardedDispose_disposed _

theorem localRun_ok (evs : List ProjEvent) :
    ∀ (pr : LocalProj), LocalProjOK pr → LocalProjOK (localProjRun pr evs) := by
  induction evs with
  | nil => intro pr h; exact h
  | cons e rest ih =>
      intro pr h
      rw [localProjRun, List.foldl_cons]
      exact ih (localProjStep pr e) (localStep_ok pr e h)

theorem localRun_mono (evs : List ProjEvent) :
    ∀ (pr : LocalProj), pr.disposed = true →
      (localProjRun pr evs).disposed = true := by
  induction evs with
  | nil => intro pr h; exact h
  | cons e rest ih =>
      intro pr h
      rw [localProjRun, List.foldl_cons]
      exact ih (localProjStep pr e) (localStep_mono pr e h)

theorem localRun_timeout (evs : List ProjEvent) :
    ∀ (pr : LocalProj), ProjEvent.timeoutFire ∈ evs →
      (localProjRun pr evs).disposed = true := by
  induction evs with
  | nil => intro pr h; cases h
  | cons e rest ih =>
      intro pr h
      rw [localProjRun, List.foldl_cons]
      rcases List.mem_cons.mp h with rfl | hmem
      · exact localRun_mono rest _ (localGuardedDispose_disposed _)
      · exact ih (localProjStep pr e) hmem

theorem remoteGuardedDispose_ok (st : RemoteProj) (h : RemoteProjOK st) :
    RemoteProjOK (remoteGuardedDispose st) := by
  rw [RemoteProjOK] at h
  rw [remoteGuardedDispose]
  split
  · next hfalse =>
      rw [hfalse] at h
      rw [RemoteProjOK, remoteMeshDispose]
      simpa using h
  · exact h

theorem remoteGuardedDispose_disposed (st : RemoteProj) :
    (remoteGuardedDispose st).disposed = true := by
  rw [remoteGuardedDispose]
  split
  · rw [remoteMeshDispose]
  · next hne => simpa using hne

theorem remoteMove_ok (st : RemoteProj) (h : RemoteProjOK st) :
    RemoteProjOK (remoteProjMove st) := by
  rw [remoteProjMove]
  split
  · exact h
  · exact h

theorem remoteMove_disposed (st : RemoteProj) (h : st.disposed = true) :
    remoteProjMove st = st := by
  rw [remoteProjMove, if_neg (by simp [h])]

theorem remoteHitCheck_ok (cam : Option Vec3) (st : RemoteProj)
    (h : RemoteProjOK st) : RemoteProjOK (remoteProjHitCheck cam st) := by
  cases cam with
  | none => exact h
  | some c =>
      simp only [remoteProjHitCheck]
      split
      · next hfalse =>
          split
          · rw [RemoteProjOK] at h
            rw [hfalse] at h
            rw [RemoteProjOK, remoteMeshDispose]
            simpa using h
          · exact h
      · exact h

theorem remoteHitCheck_of_disposed (cam : Option Vec3) (st : RemoteProj)
    (h : st.disposed = true) : remoteProjHitCheck cam st = st := by
  cases cam with
  | none => rfl
  | some c =>
      simp only [remoteProjHitCheck]
      rw [if_neg (by simp [h])]

theorem remoteRangeCheck_ok (st : RemoteProj) (h : RemoteProjOK st) :
    RemoteProjOK (remoteProjRangeCheck st) := by
  rw [remoteProjRangeCheck]
  split
  · exact remoteGuardedDispose_ok _ h
  · exact h

theorem remoteStep_ok (st : RemoteProj) (e : RemoteEvent)
    (h : RemoteProjOK st) : RemoteProjOK (remoteProjStep st e) := by
  cases e with
  | frame cam =>
      show RemoteProjOK (remoteProjFrame cam st)
      rw [remoteProjFrame]
      split
      · exact h
      · exact remoteRangeCheck_ok _ (remoteHitCheck_ok cam _ (remoteMove_ok st h))
  | timeoutFire =>
      exact remoteGuardedDispose_ok _ h

theorem remoteStep_mono (st : RemoteProj) (e : RemoteEvent)
    (h : st.disposed = true) : (remoteProjStep st e).disposed = true := by
  cases e with
  | frame cam =>
      show (remoteProjFrame cam st).disposed = true
      rw [remoteProjFrame]
      split
      · exact h
      · rw [remoteMove_disposed st h, remoteHitCheck_of_disposed cam st h,
          remoteProjRangeCheck, if_neg (by simp [h])]
        exact h
  | timeoutFire =>
      exact remoteGuardedDispose_disposed _

theorem remoteRun_ok (evs : List RemoteEvent) :
    ∀ (st : RemoteProj), RemoteProjOK st →
      RemoteProjOK (remoteProjRun st evs) := by
  induction evs with
  | nil => intro st h; exact h
  | cons e rest ih =>
      intro st h
      rw [remoteProjRun, List.foldl_cons]
      exact ih (remoteProjStep st e) (remoteStep_ok st e h)

theorem remoteRun_mono (evs : List RemoteEvent) :
    ∀ (st : RemoteProj), st.disposed = true →
      (remoteProjRun st evs).disposed = true := by
  induction evs with
  | nil => intro st h; exact h
  | cons e rest ih =>
      intro st h
      rw [remoteProjRun, List.foldl_cons]
      exact ih (remoteProjStep st e) (remoteStep_mono st e h)

theorem remoteRun_timeout (evs : List RemoteEvent) :
    ∀ (st : RemoteProj), RemoteEvent.timeoutFire ∈ evs →
      (remoteProjRun st evs).disposed = true := by
  induction evs with
  | nil => intro st h; cases h
  | cons e rest ih =>
      intro st h
      rw [remoteProjRun, List.foldl_cons]
      rcases List.mem_cons.mp h with rfl | hmem
      · exact remoteRun_mono rest _ (remoteGuardedDispose_disposed _)
      · exact ih (remoteProjStep st e) hmem

/-- C6: along any interleaving of frame callbacks and the backup timeout,
a projectile (locally simulated or remotely replayed) starting undisposed
executes `dispose()` at most once — every disposal site is guarded so a
disposed projectile is never disposed again — and once the 3000 ms timeout
event has occurred the projectile is certainly disposed (exactly one
`dispose()` has run), so none survives past that window. -/
theorem projectile_disposed_exactly_once :
    ∀ (p0 v0 : Vec3) (evs : List ProjEvent) (q0 o0 w0 : Vec3)
      (pl : LocalPlayerState) (revs : List RemoteEvent),
      (localProjRun ⟨p0, v0, false, true, 0⟩ evs).disposeCount ≤ 1 ∧
      (ProjEvent.timeoutFire ∈ evs →
        (localProjRun ⟨p0, v0, false, true, 0⟩ evs).disposed = true ∧
        (localProjRun ⟨p0, v0, false, true, 0⟩ evs).disposeCount = 1) ∧
      (remoteProjRun ⟨q0, o0, w0, pl, false, true, 0⟩ revs).disposeCount ≤ 1 ∧
      (RemoteEvent.timeoutFire ∈ revs →
        (remoteProjRun ⟨q0, o0, w0, pl, false, true, 0⟩ revs).disposed = true ∧
        (remoteProjRun ⟨q0, o0, w0, pl, false, true, 0⟩ revs).disposeCount
          = 1) := by
  intro p0 v0 evs q0 o0 w0 pl revs
  have hlok : LocalProjOK (localProjRun ⟨p0, v0, false, true, 0⟩ evs) :=
    localRun_ok evs _ rfl
  have hrok : RemoteProjOK (remoteProjRun ⟨q0, o0, w0, pl, false, true, 0⟩ revs) :=
    remoteRun_ok revs _ rfl
  rw [LocalProjOK] at hlok
  rw [RemoteProjOK] at hrok
  refine ⟨?_, ?_, ?_, ?_⟩
  · rw [hlok]; split <;> norm_num
  · intro hmem
    have hd := localRun_timeout evs (⟨p0, v0, false, true, 0⟩ : LocalProj) hmem
    rw [hlok, hd]
    exact ⟨rfl, rfl⟩
  · rw [hrok]; split <;> norm_num
  · intro hmem
    have hd := remoteRun_timeout revs
      (⟨q0, o0, w0, pl, false, true, 0⟩ : RemoteProj) hmem
    rw [hrok, hd]
    exact ⟨rfl, rfl⟩

/-- Witness for C6: a run consisting of just the timeout event disposes
both kinds of projectile exactly once. -/
theorem projectile_disposed_exactly_once_witness :
    (localProjRun ⟨⟨0, 0, 0⟩, ⟨0, 0, 0⟩, false, true, 0⟩
        [ProjEvent.timeoutFire]).disposeCount = 1 ∧
    (remoteProjRun ⟨⟨0, 0, 0⟩, ⟨0, 0, 0⟩, ⟨0, 0, 0⟩, ⟨100, 0, false⟩,
        false, true, 0⟩ [RemoteEvent.timeoutFire]).disposeCount = 1 :=
  ⟨((projectile_disposed_exactly_once ⟨0, 0, 0⟩ ⟨0, 0, 0⟩
      [ProjEvent.timeoutFire] ⟨0, 0, 0⟩ ⟨0, 0, 0⟩ ⟨0, 0, 0⟩ ⟨100, 0, false⟩
      [RemoteEvent.timeoutFire]).2.1 (List.mem_singleton.mpr rfl)).2,
   ((projectile_disposed_exactly_once ⟨0, 0, 0⟩ ⟨0, 0, 0⟩
      [ProjEvent.timeoutFire] ⟨0, 0, 0⟩ ⟨0, 0, 0⟩ ⟨0, 0, 0⟩ ⟨100, 0, false⟩
      [RemoteEvent.timeoutFire]).2.2.2 (List.mem_singleton.mpr rfl)).2⟩

end Shooter
